import Mathlib

/-!
Shallow embedding of the `cpu_usage` Linux kernel module (src/cpu_usage.c).

The module periodically samples per-CPU cumulative jiffy counters, computes a
delta-based utilization percentage, and reschedules itself on a workqueue.
All counter arithmetic in the source is performed on `unsigned long` (64-bit
on the targeted kernels), so every machine operation here is taken modulo
`2 ^ 64`, written `ulongMod`.
-/

/-- Modulus of `unsigned long` arithmetic (64-bit). -/
def ulongMod : Nat := 2 ^ 64

/-- Wraparound unsigned subtraction `a - b` on `unsigned long` values
(`a`, `b` are assumed in machine range where it matters). -/
def usubUL (a b : Nat) : Nat := (a + ulongMod - b) % ulongMod

/-- Index of `CPUTIME_USER` in `enum cpu_usage_stat`. -/
def CPUTIME_USER : Nat := 0

/-- Index of `CPUTIME_NICE`. -/
def CPUTIME_NICE : Nat := 1

/-- Index of `CPUTIME_SYSTEM`. -/
def CPUTIME_SYSTEM : Nat := 2

/-- Index of `CPUTIME_SOFTIRQ`. -/
def CPUTIME_SOFTIRQ : Nat := 3

/-- Index of `CPUTIME_IRQ`. -/
def CPUTIME_IRQ : Nat := 4

/-- Index of `CPUTIME_IDLE`. -/
def CPUTIME_IDLE : Nat := 5

/-- Index of `CPUTIME_IOWAIT`. -/
def CPUTIME_IOWAIT : Nat := 6

/-- Index of `CPUTIME_STEAL`. -/
def CPUTIME_STEAL : Nat := 7

/-- Index of `CPUTIME_GUEST`. -/
def CPUTIME_GUEST : Nat := 8

/-- Index of `CPUTIME_GUEST_NICE`. -/
def CPUTIME_GUEST_NICE : Nat := 9

/-- Number of per-CPU time categories (`NR_STATS`). -/
def NR_STATS : Nat := 10

/-- One CPU's `struct kernel_cpustat`: the cumulative jiffy counter for each
category index.  The source only reads indices `0 .. NR_STATS - 1`. -/
structure kernel_cpustat where
  cpustat : Nat → Nat

/-- The `switch` in `get_cpu_stats` (src/cpu_usage.c lines 44-52): a category
index counts toward the relevant jiffies exactly when it is one of
USER, NICE, SYSTEM, IRQ, SOFTIRQ, STEAL. -/
def isRelevantStat (index : Nat) : Bool :=
  index == CPUTIME_USER || index == CPUTIME_NICE || index == CPUTIME_SYSTEM ||
  index == CPUTIME_IRQ || index == CPUTIME_SOFTIRQ || index == CPUTIME_STEAL

/-- Body of the `for_each_online_cpu` loop of `get_cpu_stats` for one CPU:
folds the ten category counters into the `(total, relevant)` accumulator,
each addition wrapping as `unsigned long` addition does. -/
def get_cpu_stats_step (acc : Nat × Nat) (c : kernel_cpustat) : Nat × Nat :=
  (List.range NR_STATS).foldl
    (fun acc index =>
      let current_stat := c.cpustat index
      let relevant :=
        if isRelevantStat index then (acc.2 + current_stat) % ulongMod else acc.2
      ((acc.1 + current_stat) % ulongMod, relevant))
    acc

/-- `get_cpu_stats` (src/cpu_usage.c lines 31-61): sums the counters of the
currently online CPUs, given as a list, into `(total_jiffies,
relevant_jiffies)`. -/
def get_cpu_stats (online_cpus : List kernel_cpustat) : Nat × Nat :=
  online_cpus.foldl get_cpu_stats_step (0, 0)

/-- An aggregated `(total, relevant)` jiffy snapshot, as produced by
`get_cpu_stats` or stored in `last_total_jiffies` / `last_relevant_jiffies`. -/
structure AggregateSnapshot where
  total : Nat
  relevant : Nat
deriving DecidableEq, Repr

/-- The deltas and percentage computed by one report
(src/cpu_usage.c lines 69-75). -/
structure UsageSample where
  totalDelta : Nat
  relevantDelta : Nat
  percent : Nat
deriving DecidableEq, Repr

/-- The usage calculation of `report_work_main` (src/cpu_usage.c lines 69-75):
wraparound unsigned subtractions for the deltas, then
`(total_jiffies_diff > 0) ? (100 * relevant_jiffies_diff / total_jiffies_diff) : 0`,
where the multiplication by 100 is itself `unsigned long` (wrapping)
arithmetic and the division truncates. -/
def compute (previous current : AggregateSnapshot) : UsageSample :=
  let total_jiffies_diff := usubUL current.total previous.total
  let relevant_jiffies_diff := usubUL current.relevant previous.relevant
  { totalDelta := total_jiffies_diff
    relevantDelta := relevant_jiffies_diff
    percent :=
      if total_jiffies_diff > 0 then
        (100 * relevant_jiffies_diff) % ulongMod / total_jiffies_diff
      else 0 }

/-- The module's global mutable state (src/cpu_usage.c lines 21-29):
the running flag, whether a delayed work item is currently queued, the
baseline counters, the report period, and the workqueue handle. -/
structure ModuleState where
  should_work_still_run : Bool
  work_pending : Bool
  last_total_jiffies : Nat
  last_relevant_jiffies : Nat
  cpu_usage_report_period : Nat
  work_queue : Option Unit
deriving DecidableEq

/-- The state the global variables are initialized to at module load
(src/cpu_usage.c lines 21, 26-29): flag true, nothing queued, zero
baselines, default period 10, no workqueue. -/
def initialModuleState : ModuleState :=
  { should_work_still_run := true
    work_pending := false
    last_total_jiffies := 0
    last_relevant_jiffies := 0
    cpu_usage_report_period := 10
    work_queue := none }

/-- One execution of `report_work_main` (src/cpu_usage.c lines 63-84) in the
state where its delayed work item has just been dequeued: samples the given
online CPUs, computes the usage percent against the stored baseline, stores
the sample as the new baseline, and re-queues the delayed work exactly when
`should_work_still_run` is still true.  Returns the new state and the printed
percent. -/
def report_work_main (online_cpus : List kernel_cpustat) (s : ModuleState) :
    ModuleState × Nat :=
  let sampled := get_cpu_stats online_cpus
  let usage :=
    compute ⟨s.last_total_jiffies, s.last_relevant_jiffies⟩ ⟨sampled.1, sampled.2⟩
  ({ s with
      work_pending := s.should_work_still_run
      last_total_jiffies := sampled.1
      last_relevant_jiffies := sampled.2 },
    usage.percent)

/-- `EAGAIN` errno value. -/
def EAGAIN : Int := 11

/-- `cpu_usage_init` (src/cpu_usage.c lines 87-106): tries to allocate the
workqueue (the allocation result is an input); on failure stores the NULL
handle and returns `-EAGAIN` with nothing queued and the baselines untouched;
on success reads the first baseline and queues the delayed report work. -/
def cpu_usage_init (alloc_result : Option Unit)
    (online_cpus : List kernel_cpustat) (s : ModuleState) : Int × ModuleState :=
  match alloc_result with
  | none => (-EAGAIN, { s with work_queue := none })
  | some q =>
      let sampled := get_cpu_stats online_cpus
      (0, { s with
              work_queue := some q
              last_total_jiffies := sampled.1
              last_relevant_jiffies := sampled.2
              work_pending := true })

/-- `cpu_usage_exit` (src/cpu_usage.c lines 108-119): clears the running flag,
then `cancel_delayed_work_sync` removes any pending work item and waits out
any in-flight execution, and the workqueue is destroyed. -/
def cpu_usage_exit (s : ModuleState) : ModuleState :=
  { s with
      should_work_still_run := false
      work_pending := false
      work_queue := none }

/-- The only event that can change the module state after the lifecycle
hooks have run: a queued delayed work item fires and executes
`report_work_main` (the workqueue has concurrency limit 1, so ticks are
serialized and each step is one whole tick). -/
inductive SchedStep : ModuleState → ModuleState → Prop
  | tick (online_cpus : List kernel_cpustat) (s : ModuleState) :
      s.work_pending = true → SchedStep s (report_work_main online_cpus s).1

/-- Runs a sequence of ticks, one per supplied online-CPU list, threading the
module state and collecting the reported percent of each tick. -/
def runTicks (s : ModuleState) : List (List kernel_cpustat) → ModuleState × List Nat
  | [] => (s, [])
  | cpus :: rest =>
      let r := report_work_main cpus s
      let more := runTicks r.1 rest
      (more.1, r.2 :: more.2)

/-- The percent a tick reports when its baseline is `previous` and its fresh
sample is `current` (both as `(total, relevant)` pairs). -/
def percentOf (previous current : Nat × Nat) : Nat :=
  (compute ⟨previous.1, previous.2⟩ ⟨current.1, current.2⟩).percent

/-- Exact (unwrapped) sum of all ten category counters of one CPU. -/
def coreTotal (c : kernel_cpustat) : Nat :=
  c.cpustat 0 + c.cpustat 1 + c.cpustat 2 + c.cpustat 3 + c.cpustat 4 +
  c.cpustat 5 + c.cpustat 6 + c.cpustat 7 + c.cpustat 8 + c.cpustat 9

/-- Exact (unwrapped) sum of the BUSY-category counters of one CPU. -/
def coreRelevant (c : kernel_cpustat) : Nat :=
  c.cpustat 0 + c.cpustat 1 + c.cpustat 2 + c.cpustat 3 + c.cpustat 4 +
  c.cpustat 7

/-- Exact total jiffies over a list of CPUs. -/
def totalSum (cs : List kernel_cpustat) : Nat := (cs.map coreTotal).sum

/-- Exact relevant jiffies over a list of CPUs. -/
def relevantSum (cs : List kernel_cpustat) : Nat := (cs.map coreRelevant).sum

lemma range_ten : List.range 10 = [0, 1, 2, 3, 4, 5, 6, 7, 8, 9] := by rfl

lemma ulongMod_eq : ulongMod = 18446744073709551616 := by norm_num [ulongMod]

lemma get_cpu_stats_step_eq (c : kernel_cpustat) (a b : Nat) :
    get_cpu_stats_step (a, b) c =
      ((a + coreTotal c) % ulongMod, (b + coreRelevant c) % ulongMod) := by
  unfold get_cpu_stats_step NR_STATS
  rw [range_ten]
  simp only [List.foldl_cons, List.foldl_nil]
  norm_num [isRelevantStat, CPUTIME_USER, CPUTIME_NICE, CPUTIME_SYSTEM,
    CPUTIME_SOFTIRQ, CPUTIME_IRQ, CPUTIME_STEAL, coreTotal, coreRelevant,
    ulongMod_eq, Prod.ext_iff]
  omega

lemma get_cpu_stats_foldl (cs : List kernel_cpustat) :
    ∀ a b : Nat,
      cs.foldl get_cpu_stats_step (a % ulongMod, b % ulongMod) =
        ((a + totalSum cs) % ulongMod, (b + relevantSum cs) % ulongMod) := by
  induction cs with
  | nil =>
      intro a b
      simp [totalSum, relevantSum]
  | cons c rest ih =>
      intro a b
      rw [List.foldl_cons, get_cpu_stats_step_eq, Nat.mod_add_mod, Nat.mod_add_mod,
        ih (a + coreTotal c) (b + coreRelevant c)]
      simp only [totalSum, relevantSum, List.map_cons, List.sum_cons, Prod.ext_iff]
      rw [ulongMod_eq]
      omega

/-- The sampler computes exactly the wrapped exact sums over the supplied
(online) CPUs. -/
lemma get_cpu_stats_eq (cs : List kernel_cpustat) :
    get_cpu_stats cs = (totalSum cs % ulongMod, relevantSum cs % ulongMod) := by
  have h := get_cpu_stats_foldl cs 0 0
  simpa [get_cpu_stats] using h

lemma coreRelevant_le_coreTotal (c : kernel_cpustat) : coreRelevant c ≤ coreTotal c := by
  unfold coreRelevant coreTotal
  omega

lemma relevantSum_le_totalSum (cs : List kernel_cpustat) :
    relevantSum cs ≤ totalSum cs := by
  induction cs with
  | nil => simp [relevantSum, totalSum]
  | cons c rest ih =>
      have h := coreRelevant_le_coreTotal c
      simp only [relevantSum, totalSum, List.map_cons, List.sum_cons] at *
      omega

lemma ulongMod_pos : 0 < ulongMod := by
  rw [ulongMod_eq]
  norm_num

lemma usubUL_lt (a b : Nat) : usubUL a b < ulongMod :=
  Nat.mod_lt _ ulongMod_pos

lemma usubUL_of_le (a b : Nat) (hb : b ≤ a) (ha : a < ulongMod) :
    usubUL a b = a - b := by
  unfold usubUL
  rw [ulongMod_eq] at *
  omega

lemma usubUL_int (a b : Nat) (ha : a < ulongMod) (hb : b < ulongMod) :
    ((usubUL a b : Nat) : Int) = ((a : Int) - (b : Int)) % ((ulongMod : Nat) : Int) := by
  unfold usubUL
  rw [ulongMod_eq] at *
  omega

lemma compute_totalDelta (p c : AggregateSnapshot) :
    (compute p c).totalDelta = usubUL c.total p.total := by
  simp [compute]

lemma compute_relevantDelta (p c : AggregateSnapshot) :
    (compute p c).relevantDelta = usubUL c.relevant p.relevant := by
  simp [compute]

lemma compute_percent_eq (p c : AggregateSnapshot) :
    (compute p c).percent =
      if (compute p c).totalDelta = 0 then 0
      else 100 * (compute p c).relevantDelta % ulongMod / (compute p c).totalDelta := by
  simp only [compute]
  rcases Nat.eq_zero_or_pos (usubUL c.total p.total) with h | h
  · simp [h]
  · rw [if_pos h, if_neg (by omega)]

lemma compute_percent_lt (p c : AggregateSnapshot) :
    (compute p c).percent < ulongMod := by
  rw [compute_percent_eq]
  split
  · exact ulongMod_pos
  · exact lt_of_le_of_lt (Nat.div_le_self _ _) (Nat.mod_lt _ ulongMod_pos)

/-- Claim C1 counterexample: at `previous = {0, 0}`, `current = {2^63, 2^63}`
the total delta is the nonzero value `2^63`, the exact-arithmetic value
`floor(100 * relevantDelta / totalDelta)` is 100, yet the code reports 0,
because `100 * relevantDelta` wraps modulo `2^64` (to 0) before the division. -/
theorem compute_exact_floor_cex :
    (compute ⟨0, 0⟩ ⟨2 ^ 63, 2 ^ 63⟩).totalDelta ≠ 0 ∧
    (compute ⟨0, 0⟩ ⟨2 ^ 63, 2 ^ 63⟩).percent = 0 ∧
    100 * (compute ⟨0, 0⟩ ⟨2 ^ 63, 2 ^ 63⟩).relevantDelta /
        (compute ⟨0, 0⟩ ⟨2 ^ 63, 2 ^ 63⟩).totalDelta = 100 ∧
    (compute ⟨0, 0⟩ ⟨2 ^ 63, 2 ^ 63⟩).percent ≠
      100 * (compute ⟨0, 0⟩ ⟨2 ^ 63, 2 ^ 63⟩).relevantDelta /
        (compute ⟨0, 0⟩ ⟨2 ^ 63, 2 ^ 63⟩).totalDelta := by
  decide

/-- Claim C1 (amended): for machine-range snapshots, totalDelta and
relevantDelta are the wraparound (mod `2^64`) unsigned differences
`current - previous`, and the percent is 0 when totalDelta is 0 (no division
fault) and otherwise the truncating division of the *wrapped* product
`100 * relevantDelta mod 2^64` by totalDelta. -/
theorem compute_deltas_and_percent (p c : AggregateSnapshot)
    (hpt : p.total < ulongMod) (hpr : p.relevant < ulongMod)
    (hct : c.total < ulongMod) (hcr : c.relevant < ulongMod) :
    ((compute p c).totalDelta : Int) =
        ((c.total : Int) - (p.total : Int)) % ((ulongMod : Nat) : Int) ∧
    ((compute p c).relevantDelta : Int) =
        ((c.relevant : Int) - (p.relevant : Int)) % ((ulongMod : Nat) : Int) ∧
    (compute p c).percent =
      (if (compute p c).totalDelta = 0 then 0
       else 100 * (compute p c).relevantDelta % ulongMod / (compute p c).totalDelta) := by
  refine ⟨?_, ?_, compute_percent_eq p c⟩
  · rw [compute_totalDelta]
    exact usubUL_int c.total p.total hct hpt
  · rw [compute_relevantDelta]
    exact usubUL_int c.relevant p.relevant hcr hpr

/-- Claim C1 witness: Scenario A,
`previous = {1000, 200}`, `current = {1500, 400}` gives
`totalDelta = 500`, `relevantDelta = 200`, `percent = 40`. -/
theorem compute_deltas_and_percent_witness :
    ((compute ⟨1000, 200⟩ ⟨1500, 400⟩).totalDelta : Int) =
        ((1500 : Int) - (1000 : Int)) % ((ulongMod : Nat) : Int) ∧
    (compute ⟨1000, 200⟩ ⟨1500, 400⟩).totalDelta = 500 ∧
    (compute ⟨1000, 200⟩ ⟨1500, 400⟩).relevantDelta = 200 ∧
    (compute ⟨1000, 200⟩ ⟨1500, 400⟩).percent = 40 := by
  have h := compute_deltas_and_percent ⟨1000, 200⟩ ⟨1500, 400⟩
    (by decide) (by decide) (by decide) (by decide)
  exact ⟨h.1, by decide, by decide, by decide⟩

/-- Claim C2 counterexample: `previous = {0, 0}` and `current = {1, 2}`
satisfy the claimed monotonicity hypotheses, yet the reported percent is 200:
aggregate monotonicity alone does not bound relevantDelta by totalDelta. -/
theorem percent_bounded_cex :
    (⟨0, 0⟩ : AggregateSnapshot).total ≤ (⟨1, 2⟩ : AggregateSnapshot).total ∧
    (⟨0, 0⟩ : AggregateSnapshot).relevant ≤ (⟨1, 2⟩ : AggregateSnapshot).relevant ∧
    (compute ⟨0, 0⟩ ⟨1, 2⟩).percent = 200 ∧
    ¬ (compute ⟨0, 0⟩ ⟨1, 2⟩).percent ≤ 100 := by
  decide

/-- Claim C2 (amended): for machine-range snapshots with
`previous.total ≤ current.total`, `previous.relevant ≤ current.relevant` and
additionally `current.relevant - previous.relevant ≤
current.total - previous.total` (which real cumulative counters guarantee,
each category being monotone), the reported percent lies between 0 and 100 —
even when the multiplication by 100 wraps. -/
theorem percent_bounded (p c : AggregateSnapshot)
    (hct : c.total < ulongMod) (hcr : c.relevant < ulongMod)
    (hmt : p.total ≤ c.total) (hmr : p.relevant ≤ c.relevant)
    (hd : c.relevant - p.relevant ≤ c.total - p.total) :
    0 ≤ (compute p c).percent ∧ (compute p c).percent ≤ 100 := by
  refine ⟨Nat.zero_le _, ?_⟩
  have ht : (compute p c).totalDelta = c.total - p.total := by
    rw [compute_totalDelta, usubUL_of_le c.total p.total hmt hct]
  have hr : (compute p c).relevantDelta = c.relevant - p.relevant := by
    rw [compute_relevantDelta, usubUL_of_le c.relevant p.relevant hmr hcr]
  rw [compute_percent_eq, ht, hr]
  by_cases h0 : c.total - p.total = 0
  · simp [h0]
  · rw [if_neg h0]
    have h1 : 100 * (c.relevant - p.relevant) % ulongMod ≤ 100 * (c.total - p.total) :=
      le_trans (Nat.mod_le _ _) (Nat.mul_le_mul_left 100 hd)
    have h2 := Nat.div_le_div_right (c := c.total - p.total) h1
    have h3 : 100 * (c.total - p.total) / (c.total - p.total) = 100 :=
      Nat.mul_div_cancel 100 (Nat.pos_of_ne_zero h0)
    omega

/-- Claim C2 witness: Scenario A satisfies the amended hypotheses and its
percent 40 is within bounds. -/
theorem percent_bounded_witness :
    0 ≤ (compute ⟨1000, 200⟩ ⟨1500, 400⟩).percent ∧
    (compute ⟨1000, 200⟩ ⟨1500, 400⟩).percent ≤ 100 :=
  percent_bounded ⟨1000, 200⟩ ⟨1500, 400⟩
    (by decide) (by decide) (by decide) (by decide) (by decide)

/-- Claim C3: when `current.total < previous.total` (counter reset or
wraparound), the delta computation does not fault: the subtraction wraps to
the large value `current.total + (2^64 - previous.total)`, which is a
nonzero value in machine range, and the relevant delta and the reported
percent also stay in the valid unsigned range. -/
theorem wraparound_delta_no_fault (p c : AggregateSnapshot)
    (hpt : p.total < ulongMod) (hlt : c.total < p.total) :
    (compute p c).totalDelta = c.total + (ulongMod - p.total) ∧
    0 < (compute p c).totalDelta ∧
    (compute p c).totalDelta < ulongMod ∧
    (compute p c).relevantDelta < ulongMod ∧
    (compute p c).percent < ulongMod := by
  have ht : (compute p c).totalDelta = c.total + (ulongMod - p.total) := by
    rw [compute_totalDelta]
    unfold usubUL
    rw [ulongMod_eq] at *
    omega
  refine ⟨ht, ?_, ?_, ?_, compute_percent_lt p c⟩
  · rw [ht, ulongMod_eq] at *
    omega
  · rw [ht, ulongMod_eq] at *
    omega
  · rw [compute_relevantDelta]
    exact usubUL_lt c.relevant p.relevant

/-- Claim C3 witness: Scenario C, `previous.total = 1000`,
`current.total = 999` wraps to the large delta `2^64 - 1` without fault. -/
theorem wraparound_delta_no_fault_witness :
    (compute ⟨1000, 200⟩ ⟨999, 200⟩).totalDelta = 999 + (ulongMod - 1000) ∧
    0 < (compute ⟨1000, 200⟩ ⟨999, 200⟩).totalDelta ∧
    (compute ⟨1000, 200⟩ ⟨999, 200⟩).percent < ulongMod := by
  have h := wraparound_delta_no_fault ⟨1000, 200⟩ ⟨999, 200⟩ (by decide) (by decide)
  exact ⟨h.1, h.2.1, h.2.2.2.2⟩

/-- Claim C5: computing usage from an identical pair of snapshots yields
percent 0: the wrapped self-difference is 0 jiffies, and the zero total delta
takes the guarded 0 branch. -/
theorem compute_self_percent_zero (s : AggregateSnapshot) :
    (compute s s).percent = 0 := by
  have h : usubUL s.total s.total = 0 := by
    unfold usubUL
    rw [ulongMod_eq]
    omega
  simp [compute, h]

/-- A CPU whose machine-range counters sum past `2^64`: user and idle time
both `2^63`. -/
def overflowCore : kernel_cpustat :=
  ⟨fun index =>
    if index = CPUTIME_USER then 2 ^ 63
    else if index = CPUTIME_IDLE then 2 ^ 63
    else 0⟩

/-- A CPU with small counters (category `i` holds `i` jiffies). -/
def smallCore : kernel_cpustat := ⟨fun index => index⟩

/-- Claim C4 counterexample: with one online CPU whose user and idle counters
are both `2^63` (each a valid `unsigned long`), the wrapping accumulation
makes `total = 0` while `relevant = 2^63`, so the sampled snapshot violates
`relevant ≤ total`. -/
theorem relevant_le_total_cex :
    overflowCore.cpustat CPUTIME_USER < ulongMod ∧
    overflowCore.cpustat CPUTIME_IDLE < ulongMod ∧
    (get_cpu_stats [overflowCore]).1 = 0 ∧
    (get_cpu_stats [overflowCore]).2 = 2 ^ 63 ∧
    ¬ (get_cpu_stats [overflowCore]).2 ≤ (get_cpu_stats [overflowCore]).1 := by
  decide

/-- Claim C4 (amended): whenever the exact (unwrapped) grand total of all
counters over all online CPUs fits in an `unsigned long` — true of any real
jiffy counters — the sampled snapshot satisfies `relevant ≤ total`; only
accumulator wraparound can break the invariant. -/
theorem relevant_le_total (cs : List kernel_cpustat) (h : totalSum cs < ulongMod) :
    (get_cpu_stats cs).2 ≤ (get_cpu_stats cs).1 := by
  rw [get_cpu_stats_eq]
  show relevantSum cs % ulongMod ≤ totalSum cs % ulongMod
  have hr := relevantSum_le_totalSum cs
  rw [Nat.mod_eq_of_lt h, Nat.mod_eq_of_lt (lt_of_le_of_lt hr h)]
  exact hr

/-- Claim C4 witness: one CPU with small counters satisfies the no-overflow
hypothesis and the invariant. -/
theorem relevant_le_total_witness :
    totalSum [smallCore] < ulongMod ∧
    (get_cpu_stats [smallCore]).2 ≤ (get_cpu_stats [smallCore]).1 :=
  ⟨by decide, relevant_le_total [smallCore] (by decide)⟩

/-- Claim C6: a tick re-queues the delayed work exactly when
`should_work_still_run` is still true at the check (src/cpu_usage.c lines
82-83), and once `cpu_usage_exit` has cleared the flag and drained the
pending work, every subsequently reachable state has no pending work and
admits no further tick. -/
theorem tick_rearm_iff_and_exit_quiesces :
    (∀ (cpus : List kernel_cpustat) (s : ModuleState),
        ((report_work_main cpus s).1.work_pending = true ↔
          s.should_work_still_run = true)) ∧
    (∀ (s t : ModuleState),
        Relation.ReflTransGen SchedStep (cpu_usage_exit s) t →
          t.work_pending = false ∧ ∀ u, ¬ SchedStep t u) := by
  constructor
  · intro cpus s
    simp [report_work_main]
  · intro s t h
    induction h with
    | refl =>
        refine ⟨rfl, ?_⟩
        intro u hstep
        cases hstep with
        | tick cpus s0 hp =>
            simp [cpu_usage_exit] at hp
    | tail hab hbc ih =>
        exact (ih.2 _ hbc).elim

/-- Claim C6 witness: from the initial (running) state a tick re-arms, and
the exited state has nothing pending and no possible tick. -/
theorem tick_rearm_iff_and_exit_quiesces_witness :
    (report_work_main [] initialModuleState).1.work_pending = true ∧
    (cpu_usage_exit initialModuleState).work_pending = false ∧
    ¬ SchedStep (cpu_usage_exit initialModuleState) initialModuleState := by
  have h := tick_rearm_iff_and_exit_quiesces
  refine ⟨(h.1 [] initialModuleState).mpr rfl, ?_, ?_⟩
  · exact (h.2 initialModuleState _ Relation.ReflTransGen.refl).1
  · exact (h.2 initialModuleState _ Relation.ReflTransGen.refl).2 initialModuleState

/-- Claim C7: a tick stores exactly the snapshot it sampled as the new
baseline and leaves the period, the running flag and the workqueue handle
unchanged; consequently, over any run of consecutive ticks each report is
computed from the immediately preceding tick's snapshot (the start-time
baseline is used only by the first tick). -/
theorem tick_frame_and_baseline_chain :
    (∀ (cpus : List kernel_cpustat) (s : ModuleState),
        (report_work_main cpus s).1.last_total_jiffies = (get_cpu_stats cpus).1 ∧
        (report_work_main cpus s).1.last_relevant_jiffies = (get_cpu_stats cpus).2 ∧
        (report_work_main cpus s).1.cpu_usage_report_period =
          s.cpu_usage_report_period ∧
        (report_work_main cpus s).1.should_work_still_run =
          s.should_work_still_run ∧
        (report_work_main cpus s).1.work_queue = s.work_queue) ∧
    (∀ (s : ModuleState) (envs : List (List kernel_cpustat)),
        (runTicks s envs).2 =
          List.zipWith percentOf
            ((s.last_total_jiffies, s.last_relevant_jiffies) ::
              envs.map get_cpu_stats)
            (envs.map get_cpu_stats)) := by
  constructor
  · intro cpus s
    exact ⟨rfl, rfl, rfl, rfl, rfl⟩
  · intro s envs
    induction envs generalizing s with
    | nil => rfl
    | cons cpus rest ih =>
        simp only [runTicks, List.map_cons, List.zipWith_cons_cons]
        rw [ih]
        rfl

/-- Claim C8: when the workqueue allocation fails at module init, the
function returns `-EAGAIN` and the module state is exactly what it was: no
baseline sample is taken and no delayed work is queued. -/
theorem init_alloc_failure (cpus : List kernel_cpustat) (s : ModuleState)
    (h : s.work_queue = none) :
    cpu_usage_init none cpus s = (-EAGAIN, s) := by
  simp only [cpu_usage_init]
  cases s
  simp_all

/-- Claim C8 witness: allocation failure at the freshly loaded module state
returns `-EAGAIN` and changes nothing. -/
theorem init_alloc_failure_witness :
    cpu_usage_init none [] initialModuleState = (-EAGAIN, initialModuleState) :=
  init_alloc_failure [] initialModuleState rfl

/-- Claim C10: the multiplication `100 * relevant_jiffies_diff` is wrapping
`unsigned long` arithmetic.  For every pair whose computed (wrapped) deltas
satisfy `0 < relevantDelta ≤ totalDelta` with the product `100 *
relevantDelta` below the `unsigned long` range, the reported percent is the
exact quotient and is at most 100; at `previous = {0, 0}`,
`current = {2^63, 2^63}` the product reaches the range limit, wraps before
the division, and the report (0) is unrelated to the exact quotient (100). -/
theorem percent_mul_wraps :
    (∀ (p c : AggregateSnapshot),
        0 < (compute p c).relevantDelta →
        (compute p c).relevantDelta ≤ (compute p c).totalDelta →
        100 * (compute p c).relevantDelta < ulongMod →
        (compute p c).percent =
            100 * (compute p c).relevantDelta / (compute p c).totalDelta ∧
          (compute p c).percent ≤ 100) ∧
    (100 * (compute ⟨0, 0⟩ ⟨2 ^ 63, 2 ^ 63⟩).relevantDelta ≥ ulongMod ∧
      (compute ⟨0, 0⟩ ⟨2 ^ 63, 2 ^ 63⟩).relevantDelta ≤
        (compute ⟨0, 0⟩ ⟨2 ^ 63, 2 ^ 63⟩).totalDelta ∧
      (compute ⟨0, 0⟩ ⟨2 ^ 63, 2 ^ 63⟩).percent = 0 ∧
      100 * (compute ⟨0, 0⟩ ⟨2 ^ 63, 2 ^ 63⟩).relevantDelta /
          (compute ⟨0, 0⟩ ⟨2 ^ 63, 2 ^ 63⟩).totalDelta = 100) := by
  constructor
  · intro p c hrdpos hd hlt
    have htdpos : (compute p c).totalDelta ≠ 0 := by omega
    have hp : (compute p c).percent =
        100 * (compute p c).relevantDelta / (compute p c).totalDelta := by
      rw [compute_percent_eq, if_neg htdpos, Nat.mod_eq_of_lt hlt]
    refine ⟨hp, ?_⟩
    rw [hp]
    have h1 : 100 * (compute p c).relevantDelta ≤ 100 * (compute p c).totalDelta :=
      Nat.mul_le_mul_left 100 hd
    have h2 := Nat.div_le_div_right (c := (compute p c).totalDelta) h1
    have h3 : 100 * (compute p c).totalDelta / (compute p c).totalDelta = 100 :=
      Nat.mul_div_cancel 100 (Nat.pos_of_ne_zero htdpos)
    omega
  · decide

/-- Claim C10 witness: the non-monotone pair `previous = {2^64-5, 2^64-5}`,
`current = {20, 5}` has wrapped deltas `relevantDelta = 10 ≤ 25 = totalDelta`
with the product unwrapped, so its percent is the exact quotient (40) and
within bounds. -/
theorem percent_mul_wraps_witness :
    (compute ⟨ulongMod - 5, ulongMod - 5⟩ ⟨20, 5⟩).percent =
        100 * (compute ⟨ulongMod - 5, ulongMod - 5⟩ ⟨20, 5⟩).relevantDelta /
          (compute ⟨ulongMod - 5, ulongMod - 5⟩ ⟨20, 5⟩).totalDelta ∧
    (compute ⟨ulongMod - 5, ulongMod - 5⟩ ⟨20, 5⟩).percent ≤ 100 :=
  percent_mul_wraps.1 ⟨ulongMod - 5, ulongMod - 5⟩ ⟨20, 5⟩
    (by decide) (by decide) (by decide)

/-- Claim C9: sampling an empty online-CPU set yields the `(0, 0)` snapshot
with no error, and in general the sampler sums exactly (modulo the word size)
the counters of the CPUs online at sampling time — the supplied list. -/
theorem sampler_empty_and_active_only :
    get_cpu_stats [] = (0, 0) ∧
      ∀ cs : List kernel_cpustat,
        get_cpu_stats cs = (totalSum cs % ulongMod, relevantSum cs % ulongMod) := by
  exact ⟨rfl, get_cpu_stats_eq⟩
